import Mathlib

/-!
# PlayerTV streaming session engine — verification of the session-manager server

Shallow embedding of the session-based HTTP server (`server.js`, the
session-manager variant: `sessions` map, per-session HLS directories,
`/metadata`, `/start`, `/ping`, `/stop`, five-minute cleanup job).
State mutation is modelled by explicit state passing over an association
list keyed by session id; child-process handles are modelled by a Boolean
`process` field; the asynchronous probe callback is modelled by passing the
probe result as an explicit argument to the start handler.
-/

namespace PlayerTV

/-- One stream record of the external inspector's JSON report
(`ffprobe -print_format json -show_streams`): exactly the fields the server
reads — `index`, `codec_type`, `codec_name`, `tags.language`, `tags.title`.
Absent tags are `none`. -/
structure StreamInfo where
  index : Nat
  codecType : String
  codecName : String
  lang : Option String
  title : Option String
  deriving DecidableEq, Repr

/-- JavaScript `x || d` on an optional string field: `undefined` and the
empty string are falsy and select the default `d`. -/
def jsOr (o : Option String) (d : String) : String :=
  match o with
  | none => d
  | some s => if s = "" then d else s

/-- JavaScript truthiness of an optional query parameter: an absent
parameter and the empty string are falsy. -/
def jsTruthy (o : Option String) : Bool :=
  match o with
  | none => false
  | some s => s != ""

/-! ## `/metadata` handler -/

/-- `textSubtitleCodecs` from the `/metadata` handler: the only subtitle
codecs kept in the response. -/
def textSubtitleCodecs : List String :=
  ["subrip", "webvtt", "ass", "ssa", "mov_text", "mpl2", "text"]

/-- An entry of the `subs` array in the `/metadata` 200 body:
`{index: s.index, lang, title, codec}` — `index` is the absolute source
stream index. -/
structure SubEntry where
  index : Nat
  lang : String
  title : String
  codec : String
  deriving DecidableEq, Repr

/-- An entry of the `audio` array in the `/metadata` 200 body:
`{index: i, lang, codec}` — `index` is the relative position `i`. -/
structure AudioEntry where
  index : Nat
  lang : String
  codec : String
  deriving DecidableEq, Repr

/-- `.map((s, i) => ({index: s.index, lang: ..., title: ..., codec: ...}))`
over the filtered subtitle streams; `i` is the position inside the filtered
list and only feeds the default title. -/
def subEntriesAux (i : Nat) : List StreamInfo → List SubEntry
  | [] => []
  | s :: rest =>
      { index := s.index
        lang := jsOr s.lang "und"
        title := jsOr s.title ("Track " ++ toString (i + 1))
        codec := s.codecName } :: subEntriesAux (i + 1) rest

/-- `data.streams.filter(s => s.codec_type === 'subtitle')
.filter(s => textSubtitleCodecs.includes(s.codec_name))`. -/
def subStreamsOf (streams : List StreamInfo) : List StreamInfo :=
  (streams.filter (fun s => s.codecType == "subtitle")).filter
    (fun s => decide (s.codecName ∈ textSubtitleCodecs))

/-- The `subs` array of the `/metadata` 200 body. -/
def subEntriesOf (streams : List StreamInfo) : List SubEntry :=
  subEntriesAux 0 (subStreamsOf streams)

/-- `.map((s, i) => ({index: i, lang: ..., codec: ...}))` over the audio
streams: the reported `index` is the relative ordinal `i`. -/
def audioEntriesAux (i : Nat) : List StreamInfo → List AudioEntry
  | [] => []
  | s :: rest =>
      { index := i, lang := jsOr s.lang "und", codec := s.codecName }
        :: audioEntriesAux (i + 1) rest

/-- The `audio` array of the `/metadata` 200 body. -/
def audioEntriesOf (streams : List StreamInfo) : List AudioEntry :=
  audioEntriesAux 0 (streams.filter (fun s => s.codecType == "audio"))

/-- Outcome of one `/metadata` request. `badRequest` is the 400 branch
(missing `url`), `probeFailed` and `parseError` the two 500 branches, and
`ok` the 200 branch whose body is `JSON.stringify({ audio, subs })`. -/
inductive MetadataResponse where
  | badRequest
  | probeFailed
  | parseError
  | ok (audio : List AudioEntry) (subs : List SubEntry)
  deriving DecidableEq, Repr

/-- Top-level keys of the `/metadata` 200 JSON body `{ audio, subs }`. -/
def metadataOkKeys : List String := ["audio", "subs"]

/-- The `/metadata` handler: `parsed = none` models `JSON.parse` throwing on
the inspector output. -/
def metadataHandler (urlQ : Option String) (probeExit : Nat)
    (parsed : Option (List StreamInfo)) : MetadataResponse :=
  if !(jsTruthy urlQ) then .badRequest
  else if probeExit = 0 then
    match parsed with
    | some streams => .ok (audioEntriesOf streams) (subEntriesOf streams)
    | none => .parseError
  else .probeFailed

/-! ## Session store -/

/-- A session record:
`{ id, process, url, lastPing, dir }`. The child-process handle is
modelled by a Boolean (`true` = a transcoder handle is stored). -/
structure Session where
  id : String
  process : Bool
  url : Option String
  lastPing : Nat
  dir : String
  deriving DecidableEq, Repr

/-- The `sessions` map, modelled as an association list keyed by id. -/
abbrev Store := List (String × Session)

/-- `sessions.get(sid).lastPing = Date.now()` — refresh the heartbeat of the
entry keyed `sid`. -/
def touchStore (store : Store) (sid : String) (now : Nat) : Store :=
  store.map (fun p => if p.1 = sid then (p.1, { p.2 with lastPing := now }) else p)

/-- Replace the session stored under `sid`. -/
def setSession (store : Store) (sid : String) (s : Session) : Store :=
  store.map (fun p => if p.1 = sid then (p.1, s) else p)

/-! ## Path handling

`PUBLIC_DIR = path.join(__dirname, 'public')` with `__dirname = /app`
(the container works in `/app`), so the HLS root is `/app/public/hls`.
`path.join` is POSIX join plus normalization (`.` dropped, `..` resolved
against the previous segment; on an absolute path leading `..` vanishes). -/

/-- Chunks of a character list between `/` separators (structural split,
equivalent to splitting the string on `/`). -/
def splitSegsAux (cur : List Char) : List Char → List String
  | [] => [String.mk cur.reverse]
  | c :: rest =>
      if c = '/' then String.mk cur.reverse :: splitSegsAux [] rest
      else splitSegsAux (c :: cur) rest

/-- Split a path into its nonempty `/`-separated segments. -/
def splitSegs (s : String) : List String :=
  (splitSegsAux [] s.toList).filter (fun seg => seg != "")

/-- Normalize the segments of an absolute path the way `path.join` does:
`.` is dropped and `..` removes the preceding segment. -/
def normSegs (l : List String) : List String :=
  l.foldl
    (fun acc seg =>
      if seg = "." then acc
      else if seg = ".." then acc.dropLast
      else acc ++ [seg]) []

/-- Rejoin path segments with `/` separators. -/
def joinSegs : List String → String
  | [] => ""
  | [a] => a
  | a :: rest => a ++ "/" ++ joinSegs rest

/-- `path.join(base, sub)` for an absolute `base`. -/
def pathJoin (base sub : String) : String :=
  "/" ++ joinSegs (normSegs (splitSegs base ++ splitSegs sub))

/-- `hlsBaseDir = path.join(PUBLIC_DIR, HLS_DIR_NAME)`. -/
def hlsBaseDir : String := "/app/public/hls"

/-- `dir: path.join(hlsBaseDir, sessionId)` — the directory assigned to a
new session; the id is joined verbatim, with no rejection or sanitization. -/
def sessionDirOf (sid : String) : String := pathJoin hlsBaseDir sid

/-- Modelled from the spec: "the directory created for session S is always
`<hlsRoot>/<S.id>` strictly inside the HLS root". A path is strictly inside
the root exactly when it extends `root ++ "/"` by a nonempty remainder.
This contract (reject or sanitize ids with path separators) is stated by the
spec but absent from the source; this definition exists only to compare the
source's behaviour against it. -/
def specInsideRoot (root p : String) : Bool :=
  List.isPrefixOf (root ++ "/").toList p.toList
    && decide ((root ++ "/").length < p.length)

/-! ## `/ping` handler -/

/-- An HTTP reply consisting of a status code and a plain body string. -/
structure PingReply where
  statusCode : Nat
  body : String
  deriving DecidableEq, Repr

/-- The `/ping` handler:
`if (sessionId && sessions.has(sessionId)) { ...lastPing = Date.now(); }`
then `res.writeHead(200); res.end('Pong');` — the reply is the same
plain-text 200 whether or not the session exists. -/
def pingHandler (store : Store) (sidQ : Option String) (now : Nat) :
    Store × PingReply :=
  let store' :=
    match sidQ with
    | some sid =>
        if sid ≠ "" ∧ (List.lookup sid store).isSome then touchStore store sid now
        else store
    | none => store
  (store', { statusCode := 200, body := "Pong" })

/-! ## Probe result and dynamic argument assembly for `/start` -/

/-- Result of the `ffprobe` run inside `startEncodingProcess`: exit code
plus the parsed stream list (`none` = parse error). -/
structure ProbeResult where
  exitCode : Nat
  parsed : Option (List StreamInfo)
  deriving DecidableEq, Repr

/-- One element of `audioStreams`:
`{index: s.index, streamIndex: i, lang, title}`. -/
structure AudioTrack where
  index : Nat
  streamIndex : Nat
  lang : String
  title : String
  deriving DecidableEq, Repr

/-- `.filter(s => s.codec_type === 'audio').map((s, i) => ...)`. -/
def audioTracksAux (i : Nat) : List StreamInfo → List AudioTrack
  | [] => []
  | s :: rest =>
      { index := s.index, streamIndex := i, lang := jsOr s.lang "und",
        title := jsOr s.title ("Track " ++ toString (i + 1)) }
        :: audioTracksAux (i + 1) rest

/-- `audioStreams` as extracted in the probe `close` callback: empty when
the probe exited nonzero or its output failed to parse. -/
def probeAudioTracks (pr : ProbeResult) : List AudioTrack :=
  if pr.exitCode = 0 then
    match pr.parsed with
    | some streams =>
        audioTracksAux 0 (streams.filter (fun s => s.codecType == "audio"))
    | none => []
  else []

/-- `codecName = pd.streams.find(s => s.codec_type === 'video')?.codec_name
|| 'unknown'`. -/
def probeVideoCodec (pr : ProbeResult) : String :=
  if pr.exitCode = 0 then
    match pr.parsed with
    | some streams =>
        match streams.find? (fun s => s.codecType == "video") with
        | some s => if s.codecName = "" then "unknown" else s.codecName
        | none => "unknown"
    | none => "unknown"
  else "unknown"

/-- The per-track filter chain `fc` (the `\x27` escapes are the single
quotes around the amix weights). The input pad uses the absolute stream
index `audio.index`; every intermediate label is suffixed `_i`. -/
def trackFilter (i : Nat) (a : AudioTrack) : String :=
  let t := toString i
  "[0:" ++ toString a.index ++ "]aformat=channel_layouts=5.1[a51_" ++ t ++ "];" ++
  "[a51_" ++ t ++ "]channelsplit=channel_layout=5.1[FL_" ++ t ++ "][FR_" ++ t ++
    "][FC_" ++ t ++ "][LFE_" ++ t ++ "][SL_" ++ t ++ "][SR_" ++ t ++ "];" ++
  "[FC_" ++ t ++ "]equalizer=f=5000:t=q:w=1:g=4,equalizer=f=8000:t=q:w=1:g=3[eFC_orig_" ++ t ++ "];" ++
  "[FL_" ++ t ++ "]equalizer=f=6000:t=q:w=1:g=4[eFL_" ++ t ++ "];" ++
  "[FR_" ++ t ++ "]equalizer=f=6000:t=q:w=1:g=4[eFR_" ++ t ++ "];" ++
  "[eFC_orig_" ++ t ++ "]asplit=3[eFC1_" ++ t ++ "][eFC2_" ++ t ++ "][eFC3_" ++ t ++ "];" ++
  "[eFL_" ++ t ++ "][eFC1_" ++ t ++ "]amix=inputs=2:weights=\x270.70 0.30\x27[nFL_" ++ t ++ "];" ++
  "[eFR_" ++ t ++ "][eFC2_" ++ t ++ "]amix=inputs=2:weights=\x270.70 0.30\x27[nFR_" ++ t ++ "];" ++
  "[eFC3_" ++ t ++ "]volume=1.5[nFC_" ++ t ++ "];" ++
  "[nFL_" ++ t ++ "][nFR_" ++ t ++ "][nFC_" ++ t ++ "][LFE_" ++ t ++ "][SL_" ++ t ++
    "][SR_" ++ t ++ "]join=inputs=6:channel_layout=5.1[outa" ++ t ++ "];"

/-- `filterComplex += fc` over `audioStreams.forEach((audio, i) => ...)`. -/
def filterAux (i : Nat) : List AudioTrack → String
  | [] => ""
  | a :: rest => trackFilter i a ++ filterAux (i + 1) rest

/-- The concatenated graph with the trailing semicolon removed
(`if (filterComplex.endsWith(';')) filterComplex = filterComplex.slice(0, -1)`;
the one-character suffix test and slice are expressed on the character
list). -/
def filterComplexOf (tracks : List AudioTrack) : String :=
  let f := filterAux 0 tracks
  if f.toList.getLast? = some ';' then String.mk f.toList.dropLast else f

/-- `audioMaps.push('-map', '[outa' + i + ']')` over the tracks. -/
def audioMapsAux (i : Nat) : List AudioTrack → List String
  | [] => []
  | _ :: rest => "-map" :: ("[outa" ++ toString i ++ "]") :: audioMapsAux (i + 1) rest

/-- The flattened `audioMaps` array. -/
def audioMapsOf (tracks : List AudioTrack) : List String := audioMapsAux 0 tracks

/-- The `[^a-zA-Z0-9] -> _` character replacement of the title sanitizer. -/
def sanitizeChar (c : Char) : Char := if c.isAlphanum then c else '_'

/-- `.replace(/^_+|_+$/g, '')` — strip leading and trailing underscores. -/
def stripUnderscores (s : String) : String :=
  String.mk (((s.toList.dropWhile (fun c => c = '_')).reverse.dropWhile
    (fun c => c = '_')).reverse)

/-- `safeTitle = (audio.title || 'Audio_'+(i+1)).replace(...)... || 'Audio_'+(i+1)`. -/
def safeTitleOf (title : String) (i : Nat) : String :=
  let base := if title = "" then "Audio_" ++ toString (i + 1) else title
  let t := stripUnderscores (String.mk (base.toList.map sanitizeChar))
  if t = "" then "Audio_" ++ toString (i + 1) else t

/-- `varStreamMap += ' a:'+i+',agroup:audio,language:'+lang+',name:'+safeTitle`. -/
def vsmAux (i : Nat) : List AudioTrack → String
  | [] => ""
  | a :: rest =>
      " a:" ++ toString i ++ ",agroup:audio,language:" ++ a.lang ++ ",name:"
        ++ safeTitleOf a.title i ++ vsmAux (i + 1) rest

/-- The variant stream map: `'v:0,agroup:audio' + entries` with audio,
bare `'v:0'` without. -/
def varStreamMapOf (tracks : List AudioTrack) : String :=
  match tracks with
  | [] => "v:0"
  | _ => "v:0,agroup:audio" ++ vsmAux 0 tracks

/-- `let videoCodec = 'libx264'` overridden to `'copy'` in direct mode. -/
def videoCodecOf (tryDirectMode : Bool) : String :=
  if tryDirectMode then "copy" else "libx264"

/-- The transcode-mode encoder options; direct mode clears them. -/
def defaultVideoOpts : List String :=
  ["-preset", "ultrafast", "-tune", "zerolatency", "-crf", "23", "-pix_fmt", "yuv420p"]

/-- `videoOpts` after the direct-mode override. -/
def videoOptsOf (tryDirectMode : Bool) : List String :=
  if tryDirectMode then [] else defaultVideoOpts

/-- `let audioCodec = 'aac'` switched to `'ac3'` for TVs. -/
def audioCodecOf (isTV : Bool) : String := if isTV then "ac3" else "aac"

/-- `audioSampleRate = ['-ar', '48000']` for TVs, `[]` (keep original)
otherwise. -/
def audioSampleRateOf (isTV : Bool) : List String :=
  if isTV then ["-ar", "48000"] else []

/-- The conditional audio block
`if (audioStreams.length > 0) ffmpegArgs.push('-filter_complex', ..., '-c:a',
audioCodec, ...audioSampleRate, '-b:a', '640k', '-ac', '6')`. -/
def audioBlockArgs (isTV : Bool) (tracks : List AudioTrack) : List String :=
  if tracks.isEmpty then []
  else
    ["-filter_complex", filterComplexOf tracks, "-c:a", audioCodecOf isTV]
      ++ audioSampleRateOf isTV ++ ["-b:a", "640k", "-ac", "6"]

/-- The final HLS block pushed after the audio block; `path.join` of the
session dir with a plain file name is plain concatenation. -/
def hlsTailArgs (vsm : String) (dir : String) : List String :=
  ["-max_muxing_queue_size", "4096",
   "-f", "hls",
   "-hls_time", "6",
   "-hls_list_size", "0",
   "-hls_playlist_type", "event",
   "-hls_allow_cache", "1",
   "-start_number", "0",
   "-master_pl_name", "main.m3u8",
   "-var_stream_map", vsm,
   "-hls_segment_filename", dir ++ "/stream_%v_%d.ts",
   dir ++ "/stream_%v.m3u8"]

/-- The complete `ffmpegArgs` list in assembly order: base args with the
video map and the audio maps, the video codec block, then (conditionally)
the audio block, then the HLS tail. -/
def ffmpegArgsOf (isTV tryDirectMode : Bool) (tracks : List AudioTrack)
    (videoUrl dir : String) : List String :=
  ["-y", "-i", videoUrl, "-map", "0:v:0"] ++ audioMapsOf tracks
    ++ ["-c:v", videoCodecOf tryDirectMode] ++ videoOptsOf tryDirectMode
    ++ audioBlockArgs isTV tracks
    ++ hlsTailArgs (varStreamMapOf tracks) dir

/-- Everything `startEncodingProcess(tryDirectMode)` computes before
spawning: mode banner, codec plan, filter graph, variant map and the full
argument list. -/
structure EncodingPlan where
  modeString : String
  videoCodec : String
  videoOpts : List String
  audioCodec : String
  audioSampleRate : List String
  audioTracks : List AudioTrack
  filterComplex : String
  varStreamMap : String
  args : List String
  deriving DecidableEq, Repr

/-- Build the plan of one encoding attempt:
`const mode = tryDirectMode ? "DIRECT (Copy)" : "TRANSCODE"` and the
argument assembly of the probe `close` callback. -/
def buildPlan (isTV tryDirectMode : Bool) (pr : ProbeResult)
    (videoUrl dir : String) : EncodingPlan :=
  { modeString := if tryDirectMode then "DIRECT (Copy)" else "TRANSCODE"
    videoCodec := videoCodecOf tryDirectMode
    videoOpts := videoOptsOf tryDirectMode
    audioCodec := audioCodecOf isTV
    audioSampleRate := audioSampleRateOf isTV
    audioTracks := probeAudioTracks pr
    filterComplex := filterComplexOf (probeAudioTracks pr)
    varStreamMap := varStreamMapOf (probeAudioTracks pr)
    args := ffmpegArgsOf isTV tryDirectMode (probeAudioTracks pr) videoUrl dir }

/-- The JSON written when the master playlist appears:
`{status: 'started', mode: mode}`. -/
def startedResponse (plan : EncodingPlan) : List (String × String) :=
  [("status", "started"), ("mode", plan.modeString)]

/-- `maxAttempts = tryDirectMode ? 20 : 240` readiness-poll bound. -/
def maxAttemptsOf (tryDirectMode : Bool) : Nat :=
  if tryDirectMode then 20 else 240

/-! ## `/start` handler -/

/-- The session object created for an unseen id. -/
def newSession (sid : String) (now : Nat) : Session :=
  { id := sid, process := false, url := none, lastPing := now,
    dir := pathJoin hlsBaseDir sid }

/-- Outcome of one `/start` request, composed with the probe callback:
`badRequest` = 400, `resumed` = the smart-check reuse branch (no spawn),
`launched` = a transcoder was spawned with the given plan and the session
now carries `process` and the new `url` (the response is sent later, on
readiness or failure). -/
inductive StartOutcome where
  | badRequest
  | resumed (store : Store)
  | launched (store : Store) (plan : EncodingPlan)
  deriving DecidableEq, Repr

/-- The `/start` handler composed with the probe `close` callback of
`startEncodingProcess(isTV)`:
1. 400 when `url` or `session` is missing;
2. get-or-create the session, refreshing `lastPing`;
3. smart check — same url and a live process → `resumed`, nothing else
   touched;
4. otherwise kill any previous process, clear the directory, probe, record
   `url`/`process` on the session and spawn with the built plan
   (`tryDirectMode = isTV` on the first attempt). -/
def startHandler : Store → Option String → Option String → Nat → Bool →
    ProbeResult → StartOutcome
  | store, some u, some sid, now, isTV, pr =>
      if u = "" ∨ sid = "" then .badRequest
      else
        match List.lookup sid store with
        | some s0 =>
            if s0.process = true ∧ s0.url = some u then
              .resumed (touchStore store sid now)
            else
              .launched
                (setSession (touchStore store sid now) sid
                  { s0 with lastPing := now, process := true, url := some u })
                (buildPlan isTV isTV pr u s0.dir)
        | none =>
            .launched
              (setSession (store ++ [(sid, newSession sid now)]) sid
                { newSession sid now with process := true, url := some u })
              (buildPlan isTV isTV pr u (newSession sid now).dir)
  | _, none, _, _, _, _ => .badRequest
  | _, _, none, _, _, _ => .badRequest

/-! ## Transcoder close handler and fallback -/

/-- First two statements of `session.process.on('close', ...)`:
`session.process = null; session.url = null;` — unconditional, whatever the
exit code. -/
def closeClearSession (_code : Int) (s : Session) : Session :=
  { s with process := false, url := none }

/-- What the close handler does after clearing the session. -/
inductive CloseFollowUp where
  | fallbackRestart
  | respond500 (code : Int)
  | silent
  deriving DecidableEq, Repr

/-- The branch structure of the close handler: a failed direct attempt with
the response still unsent restarts in transcode mode
(`startEncodingProcess(false)`); any other pre-response failure answers
500; everything else is silent. -/
def closeFollowUp (tryDirectMode : Bool) (code : Int) (headersSent : Bool) :
    CloseFollowUp :=
  if tryDirectMode ∧ code ≠ 0 ∧ headersSent = false then .fallbackRestart
  else if code ≠ 0 ∧ headersSent = false then .respond500 code
  else .silent

/-! ## Session cleanup job -/

/-- `setInterval(..., 5 * 60 * 1000)` — cleanup period in milliseconds. -/
def cleanupPeriodMs : Nat := 5 * 60 * 1000

/-- `TIMEOUT_MS = 2 * 60 * 60 * 1000` — inactivity threshold. -/
def sessionTimeoutMs : Nat := 2 * 60 * 60 * 1000

/-- `now - session.lastPing > TIMEOUT_MS`. -/
def expiredAt (now : Nat) (s : Session) : Bool :=
  decide (sessionTimeoutMs < now - s.lastPing)

/-- Side effects of evicting a session: kill the transcoder, remove the
directory tree, drop the map entry. -/
inductive CleanupAction where
  | killTranscoder (sid : String)
  | removeDir (dir : String)
  | dropEntry (sid : String)
  deriving DecidableEq, Repr

/-- The actions performed by one tick of the cleanup job. -/
def cleanupActions (now : Nat) (store : Store) : List CleanupAction :=
  (store.filter (fun p => expiredAt now p.2)).flatMap
    (fun p =>
      (if p.2.process then [CleanupAction.killTranscoder p.1] else [])
        ++ [CleanupAction.removeDir p.2.dir, CleanupAction.dropEntry p.1])

/-- The store left after one tick of the cleanup job: exactly the
non-expired sessions survive. -/
def cleanupTick (now : Nat) (store : Store) : Store :=
  store.filter (fun p => !(expiredAt now p.2))

/-! ## Concrete fixtures used by counterexamples and witnesses -/

/-- A session with a live transcoder playing `http://m/v.mkv`. -/
def sampleSession : Session :=
  { id := "s1", process := true, url := some "http://m/v.mkv", lastPing := 0,
    dir := "/app/public/hls/s1" }

/-- A one-session store holding `sampleSession`. -/
def sampleStore : Store := [("s1", sampleSession)]

/-- The session after its transcoder exited (close handler ran). -/
def doneSession : Session := closeClearSession 0 sampleSession

/-- A probe of a source that is fully TV-compatible (H.264 video, AC-3
audio). -/
def tvProbe : ProbeResult :=
  { exitCode := 0
    parsed := some
      [ { index := 0, codecType := "video", codecName := "h264",
          lang := none, title := none },
        { index := 1, codecType := "audio", codecName := "ac3",
          lang := some "eng", title := some "Main" } ] }

/-- A probe of an H.264 + AAC-stereo source. -/
def browserProbe : ProbeResult :=
  { exitCode := 0
    parsed := some
      [ { index := 0, codecType := "video", codecName := "h264",
          lang := none, title := none },
        { index := 1, codecType := "audio", codecName := "aac",
          lang := some "eng", title := some "Stereo" } ] }

/-- A stream list with one text subtitle and one image subtitle. -/
def metaStreams : List StreamInfo :=
  [ { index := 0, codecType := "video", codecName := "h264",
      lang := none, title := none },
    { index := 1, codecType := "audio", codecName := "aac",
      lang := some "eng", title := some "Stereo" },
    { index := 2, codecType := "subtitle", codecName := "subrip",
      lang := some "eng", title := some "English" },
    { index := 3, codecType := "subtitle", codecName := "hdmv_pgs_subtitle",
      lang := some "ger", title := none } ]

/-- The session a TV client is left with after its stream ended. -/
def postFallbackStore : Store :=
  [("tv1", { id := "tv1", process := false, url := none, lastPing := 50,
             dir := "/app/public/hls/tv1" })]

/-- A stale session (no heartbeat since time 0). -/
def staleOld : Session :=
  { id := "old", process := true, url := some "u", lastPing := 0,
    dir := "/app/public/hls/old" }

/-- A fresh session (heartbeat at time 8000000). -/
def freshNew : Session :=
  { id := "new", process := false, url := none, lastPing := 8000000,
    dir := "/app/public/hls/new" }

/-- A store holding one stale and one fresh session. -/
def staleStore : Store := [("old", staleOld), ("new", freshNew)]

/-! ## Helper lemmas -/

/-- Any element of `touchStore` comes from an element of the original store
with the same key and the same fields apart from `lastPing`. -/
theorem touchStore_mem {store : Store} {sid : String} {now : Nat}
    {p : String × Session} (h : p ∈ touchStore store sid now) :
    ∃ q, q ∈ store ∧ p.1 = q.1 ∧ p.2.id = q.2.id ∧ p.2.process = q.2.process ∧
      p.2.url = q.2.url ∧ p.2.dir = q.2.dir := by
  simp only [touchStore, List.mem_map] at h
  obtain ⟨q, hq, hfq⟩ := h
  by_cases hk : q.1 = sid
  · simp [hk] at hfq
    refine ⟨q, hq, ?_, ?_, ?_, ?_, ?_⟩ <;> simp [← hfq, hk]
  · simp [hk] at hfq
    refine ⟨q, hq, ?_, ?_, ?_, ?_, ?_⟩ <;> simp [← hfq]

/-- Splitting the flattened audio-map array at track `k`. -/
theorem audioMapsAux_split :
    ∀ (l : List AudioTrack) (i0 k : Nat), k < l.length →
      ∃ m1 m2, audioMapsAux i0 l =
        m1 ++ ["-map", "[outa" ++ toString (i0 + k) ++ "]"] ++ m2 := by
  intro l
  induction l with
  | nil => intro i0 k h; simp at h
  | cons a t ih =>
    intro i0 k h
    cases k with
    | zero =>
      exact ⟨[], audioMapsAux (i0 + 1) t, by simp [audioMapsAux]⟩
    | succ k =>
      obtain ⟨m1, m2, hm⟩ := ih (i0 + 1) k (by simpa using h)
      refine ⟨"-map" :: ("[outa" ++ toString i0 ++ "]") :: m1, m2, ?_⟩
      have harith : i0 + 1 + k = i0 + (k + 1) := by omega
      simp [audioMapsAux, hm, harith]

/-- Every produced subtitle entry carries the absolute index and codec of a
stream of the input list. -/
theorem subEntriesAux_mem :
    ∀ (l : List StreamInfo) (i : Nat) (e : SubEntry), e ∈ subEntriesAux i l →
      ∃ s, s ∈ l ∧ e.index = s.index ∧ e.codec = s.codecName := by
  intro l
  induction l with
  | nil => intro i e h; simp [subEntriesAux] at h
  | cons a t ih =>
    intro i e h
    simp only [subEntriesAux, List.mem_cons] at h
    rcases h with h | h
    · exact ⟨a, by simp, by simp [h]⟩
    · obtain ⟨s, hs, h1, h2⟩ := ih (i + 1) e h
      exact ⟨s, by simp [hs], h1, h2⟩

/-- Every stream of the input list produces a subtitle entry with its
absolute index and codec. -/
theorem mem_subEntriesAux :
    ∀ (l : List StreamInfo) (i : Nat) (s : StreamInfo), s ∈ l →
      ∃ e, e ∈ subEntriesAux i l ∧ e.index = s.index ∧ e.codec = s.codecName := by
  intro l
  induction l with
  | nil => intro i s h; simp at h
  | cons a t ih =>
    intro i s h
    rcases List.mem_cons.mp h with h | h
    · subst h
      refine ⟨{ index := s.index, lang := jsOr s.lang "und",
                title := jsOr s.title ("Track " ++ toString (i + 1)),
                codec := s.codecName }, ?_, rfl, rfl⟩
      simp [subEntriesAux]
    · obtain ⟨e, he, h1, h2⟩ := ih (i + 1) s h
      exact ⟨e, by simp [subEntriesAux, he], h1, h2⟩

/-! ## Claim theorems -/

/-- **C1, counterexample.** An unknown session id pinged against an empty
store is answered 200 with the plain-text body `Pong`, not 404 with JSON
`{status:"invalid_session"}` as the claim states. -/
theorem c1_ping_counterexample :
    pingHandler [] (some "ghost") 7 = ([], { statusCode := 200, body := "Pong" }) ∧
    (pingHandler [] (some "ghost") 7).2.statusCode ≠ 404 ∧
    (pingHandler [] (some "ghost") 7).2.body ≠
      "\x7b\"status\":\"invalid_session\"\x7d" := by
  decide

/-- **C1, amended.** Every `/ping` reply is 200 with plain-text body
`Pong` (no JSON, no `encodedDuration`, no `liveEdgeTime`, no 404); when the
session id is known its `lastHeartbeat` is refreshed, and when it is
unknown the store is untouched. -/
theorem c1_ping_behavior :
    (∀ store sidQ now,
      (pingHandler store sidQ now).2 = { statusCode := 200, body := "Pong" }) ∧
    (∀ store sid now, sid ≠ "" → (List.lookup sid store).isSome = true →
      (pingHandler store (some sid) now).1 = touchStore store sid now) ∧
    (∀ store sid now, List.lookup sid store = none →
      (pingHandler store (some sid) now).1 = store) := by
  refine ⟨?_, ?_, ?_⟩
  · intro store sidQ now
    cases sidQ <;> simp [pingHandler]
  · intro store sid now h1 h2
    simp [pingHandler, h1, h2]
  · intro store sid now h
    simp [pingHandler, h]

/-- **C1, witness.** The amended behaviour at concrete inputs: a known
session is touched, an unknown one leaves the store unchanged. -/
theorem c1_ping_behavior_witness :
    (pingHandler sampleStore (some "s1") 9).1 = touchStore sampleStore "s1" 9 ∧
    (pingHandler sampleStore (some "zz") 9).1 = sampleStore :=
  ⟨c1_ping_behavior.2.1 sampleStore "s1" 9 (by decide) (by decide),
   c1_ping_behavior.2.2 sampleStore "zz" 9 (by decide)⟩

set_option maxRecDepth 16384 in
/-- **C2, counterexample.** A TV client starting a fully compatible
H.264 + AC-3 source: the handler spawns a transcoder (`launched`, the
session now holds a process handle) running in mode `DIRECT (Copy)` —
there is no `NATIVE_DIRECT` mode, no `/direct-stream` URL, and a
transcoder process is spawned, contradicting the claim. -/
theorem c2_tv_start_counterexample :
    startHandler [] (some "http://m/v.mp4") (some "tv1") 0 true tvProbe =
      .launched
        [("tv1", { id := "tv1", process := true, url := some "http://m/v.mp4",
                   lastPing := 0, dir := "/app/public/hls/tv1" })]
        (buildPlan true true tvProbe "http://m/v.mp4" "/app/public/hls/tv1") ∧
    (buildPlan true true tvProbe "http://m/v.mp4" "/app/public/hls/tv1").modeString
      = "DIRECT (Copy)" ∧
    (buildPlan true true tvProbe "http://m/v.mp4" "/app/public/hls/tv1").modeString
      ≠ "NATIVE_DIRECT" ∧
    startedResponse (buildPlan true true tvProbe "http://m/v.mp4" "/app/public/hls/tv1")
      ≠ [("status", "started"), ("mode", "NATIVE_DIRECT")] := by
  decide

/-- **C2, amended.** For every start from a TV device that does not hit the
resume branch, the code attempts `DIRECT (Copy)` mode regardless of the
probe result: a transcoder process is spawned with video codec `copy` and
no encoder options, and the readiness response is
`{status:"started", mode:"DIRECT (Copy)"}`. -/
theorem c2_tv_direct_attempt :
    (∀ pr u dir,
      (buildPlan true true pr u dir).videoCodec = "copy" ∧
      (buildPlan true true pr u dir).videoOpts = [] ∧
      (buildPlan true true pr u dir).modeString = "DIRECT (Copy)" ∧
      startedResponse (buildPlan true true pr u dir) =
        [("status", "started"), ("mode", "DIRECT (Copy)")]) ∧
    (∀ store sid u now pr, u ≠ "" → sid ≠ "" →
      (∀ s0, List.lookup sid store = some s0 →
        ¬(s0.process = true ∧ s0.url = some u)) →
      ∃ st dir, startHandler store (some u) (some sid) now true pr =
        .launched st (buildPlan true true pr u dir)) := by
  constructor
  · intro pr u dir
    refine ⟨rfl, rfl, rfl, rfl⟩
  · intro store sid u now pr hu hsid hres
    simp only [startHandler]
    rw [if_neg (by simp [hu, hsid])]
    cases hl : List.lookup sid store with
    | none => exact ⟨_, _, rfl⟩
    | some s0 =>
      dsimp only
      rw [if_neg (hres s0 hl)]
      exact ⟨_, _, rfl⟩

/-- **C2, witness.** The amended behaviour at a concrete input: a fresh TV
session launches a direct-copy attempt. -/
theorem c2_tv_direct_attempt_witness :
    ∃ st dir, startHandler [] (some "http://m/v.mp4") (some "tv1") 0 true tvProbe =
      .launched st (buildPlan true true tvProbe "http://m/v.mp4" dir) :=
  c2_tv_direct_attempt.2 [] "tv1" "http://m/v.mp4" 0 tvProbe
    (by decide) (by decide) (by intro s0 h; simp at h)

set_option maxRecDepth 16384 in
/-- **C3, counterexample.** A within-request direct-mode failure does
trigger the transcode fallback (`closeFollowUp`), but the session keeps no
sticky flag: a subsequent start on the same TV session again selects the
direct-copy mode, with video codec `copy` and mode banner `DIRECT (Copy)`,
not the full-transcode mode the claim requires. -/
theorem c3_no_sticky_counterexample :
    closeFollowUp true 1 false = .fallbackRestart ∧
    startHandler postFallbackStore (some "http://m/v2.mp4") (some "tv1") 60 true tvProbe =
      .launched
        [("tv1", { id := "tv1", process := true, url := some "http://m/v2.mp4",
                   lastPing := 60, dir := "/app/public/hls/tv1" })]
        (buildPlan true true tvProbe "http://m/v2.mp4" "/app/public/hls/tv1") ∧
    (buildPlan true true tvProbe "http://m/v2.mp4" "/app/public/hls/tv1").videoCodec
      = "copy" ∧
    (buildPlan true true tvProbe "http://m/v2.mp4" "/app/public/hls/tv1").modeString
      ≠ "TRANSCODE" := by
  decide

/-- **C3, amended.** Sessions carry no sticky `forceTranscode` flag: the
fallback from a failed direct attempt to transcode happens only inside the
failing start request (the close handler restarts with transcode exactly
when the exit code is nonzero and the response is unsent), and the mode of
any fresh start attempt is computed from the device class alone — a TV
session attempts direct copy again regardless of earlier fallbacks. -/
theorem c3_fallback_not_sticky :
    (∀ code headersSent,
      closeFollowUp true code headersSent = .fallbackRestart ↔
        (code ≠ 0 ∧ headersSent = false)) ∧
    (∀ isTV pr u dir, (buildPlan isTV isTV pr u dir).modeString =
      (if isTV then "DIRECT (Copy)" else "TRANSCODE")) := by
  constructor
  · intro code headersSent
    constructor
    · intro h
      by_cases hc : code ≠ 0 ∧ headersSent = false
      · exact hc
      · exfalso
        unfold closeFollowUp at h
        rw [if_neg (by simpa using hc), if_neg hc] at h
        simp at h
    · intro hc
      simp [closeFollowUp, hc.1, hc.2]
  · intro isTV pr u dir
    cases isTV <;> rfl

/-- **C4 (code bug).** The store joins the raw session id onto the HLS
root with no rejection or sanitization: the id `../evil` produces the
directory `/app/public/evil`, which is outside the HLS root, while a plain
id stays strictly inside — evaluating the code at the failing input. -/
theorem c4_session_dir_escape :
    sessionDirOf "../evil" = "/app/public/evil" ∧
    specInsideRoot hlsBaseDir (sessionDirOf "../evil") = false ∧
    specInsideRoot hlsBaseDir (sessionDirOf "alice") = true := by
  decide

/-- **C5, counterexample.** A second start for the same `(session, url)`
while the transcoder runs is answered `resumed` — but it does mutate the
session: `lastPing` is refreshed before the smart check, so the store
after the call differs from the store before it. -/
theorem c5_resume_touches_heartbeat :
    startHandler sampleStore (some "http://m/v.mkv") (some "s1") 5 false
        { exitCode := 1, parsed := none } =
      .resumed (touchStore sampleStore "s1" 5) ∧
    touchStore sampleStore "s1" 5 ≠ sampleStore := by
  decide

/-- **C5, amended.** A second start with the same `(session, url)` while
the first transcoder is running returns `resumed` without spawning another
transcoder, and the only session mutation is the heartbeat refresh: every
entry of the resulting store keeps its key, id, process handle, url and
directory. -/
theorem c5_resumed_idempotent :
    (∀ store sid s u now isTV pr, List.lookup sid store = some s →
      s.process = true → s.url = some u → u ≠ "" → sid ≠ "" →
      startHandler store (some u) (some sid) now isTV pr =
        .resumed (touchStore store sid now)) ∧
    (∀ store sid now p, p ∈ touchStore store sid now →
      ∃ q, q ∈ store ∧ p.1 = q.1 ∧ p.2.id = q.2.id ∧
        p.2.process = q.2.process ∧ p.2.url = q.2.url ∧ p.2.dir = q.2.dir) := by
  constructor
  · intro store sid s u now isTV pr hl hp hurl hu hsid
    simp only [startHandler]
    rw [if_neg (by simp [hu, hsid])]
    cases hl2 : List.lookup sid store with
    | none => rw [hl2] at hl; exact absurd hl (by simp)
    | some s0 =>
      rw [hl2] at hl
      injection hl with hl
      subst hl
      dsimp only
      rw [if_pos ⟨hp, hurl⟩]
  · intro store sid now p hp
    exact touchStore_mem hp

/-- **C5, witness.** The amended behaviour at a concrete input: the running
`sampleSession` started again with its own url resumes with only the
heartbeat touched. -/
theorem c5_resumed_idempotent_witness :
    startHandler sampleStore (some "http://m/v.mkv") (some "s1") 9 true
        { exitCode := 0, parsed := some [] } =
      .resumed (touchStore sampleStore "s1" 9) :=
  c5_resumed_idempotent.1 sampleStore "s1" sampleSession "http://m/v.mkv" 9 true
    { exitCode := 0, parsed := some [] } rfl rfl rfl (by decide) (by decide)

set_option maxRecDepth 16384 in
/-- **C6, counterexample.** For an H.264 + AAC source in transcode mode the
built argument list puts the `-map [outa0]` pair at positions 5–6 and the
`-filter_complex` declaration only at position 17: the map referencing the
filter output label appears *before* the graph declaration, contradicting
the claimed ordering. -/
theorem c6_map_before_filter_counterexample :
    "[outa0]" ∈
      (buildPlan false false browserProbe "http://m/v.mp4" "/app/public/hls/s1").args ∧
    "-filter_complex" ∈
      (buildPlan false false browserProbe "http://m/v.mp4" "/app/public/hls/s1").args ∧
    List.indexOf "[outa0]"
      (buildPlan false false browserProbe "http://m/v.mp4" "/app/public/hls/s1").args = 6 ∧
    List.indexOf "-filter_complex"
      (buildPlan false false browserProbe "http://m/v.mp4" "/app/public/hls/s1").args = 17 := by
  decide

/-- **C6, amended.** Whenever audio filtering is active, every
`-map [outa<i>]` argument appears in the built list *before* the
`-filter_complex` graph declaration: the audio maps sit directly after the
video map, and the graph is only declared inside the audio codec block
(still ahead of the output path, which is what the transcoder requires). -/
theorem c6_maps_precede_filter :
    ∀ (isTV dm : Bool) (pr : ProbeResult) (u dir : String) (k : Nat),
      k < (probeAudioTracks pr).length →
      ∃ l1 l2 l3,
        (buildPlan isTV dm pr u dir).args =
          l1 ++ ["-map", "[outa" ++ toString k ++ "]"] ++ l2
            ++ ["-filter_complex", (buildPlan isTV dm pr u dir).filterComplex] ++ l3 := by
  intro isTV dm pr u dir k hk
  obtain ⟨m1, m2, hm⟩ := audioMapsAux_split (probeAudioTracks pr) 0 k hk
  rw [Nat.zero_add] at hm
  have hne : (probeAudioTracks pr).isEmpty = false := by
    cases h : probeAudioTracks pr with
    | nil => rw [h] at hk; simp at hk
    | cons a t => rfl
  refine ⟨["-y", "-i", u, "-map", "0:v:0"] ++ m1,
          m2 ++ ["-c:v", videoCodecOf dm] ++ videoOptsOf dm,
          ["-c:a", audioCodecOf isTV] ++ audioSampleRateOf isTV
            ++ ["-b:a", "640k", "-ac", "6"]
            ++ hlsTailArgs (varStreamMapOf (probeAudioTracks pr)) dir, ?_⟩
  simp [buildPlan, ffmpegArgsOf, audioMapsOf, hm, audioBlockArgs, hne,
    List.append_assoc]

/-- **C6, witness.** The amended ordering at a concrete one-track input. -/
theorem c6_maps_precede_filter_witness :
    ∃ l1 l2 l3,
      (buildPlan false false browserProbe "u" "/d").args =
        l1 ++ ["-map", "[outa" ++ toString 0 ++ "]"] ++ l2
          ++ ["-filter_complex",
              (buildPlan false false browserProbe "u" "/d").filterComplex] ++ l3 :=
  c6_maps_precede_filter false false browserProbe "u" "/d" 0 (by decide)

/-- **C7, counterexample.** A successful probe of a source with one text
subtitle and one image subtitle: the 200 body carries the audio list and
the filtered subs list (absolute index 2, image subtitle dropped), but its
top-level keys are exactly `audio` and `subs` — there is no `duration`
field, contradicting the claimed response shape. -/
theorem c7_no_duration_counterexample :
    metadataHandler (some "http://m/v.mkv") 0 (some metaStreams) =
      .ok [{ index := 0, lang := "eng", codec := "aac" }]
          [{ index := 2, lang := "eng", title := "English", codec := "subrip" }] ∧
    "duration" ∉ metadataOkKeys := by
  decide

/-- **C7, amended.** `/metadata` answers 400 when `url` is missing, 500 on
probe failure, and otherwise 200 JSON with an `audio` list and a `subs`
list (and nothing else — no total duration); the subs list contains
exactly the subtitle streams whose codec is in
`{subrip, webvtt, ass, ssa, mov_text, mpl2, text}`, each entry carrying the
absolute source stream index. -/
theorem c7_metadata_contract :
    (∀ probeExit parsed, metadataHandler none probeExit parsed = .badRequest) ∧
    (∀ u probeExit parsed, u ≠ "" → probeExit ≠ 0 →
      metadataHandler (some u) probeExit parsed = .probeFailed) ∧
    (∀ u streams, u ≠ "" →
      metadataHandler (some u) 0 (some streams) =
        .ok (audioEntriesOf streams) (subEntriesOf streams)) ∧
    (∀ streams e, e ∈ subEntriesOf streams →
      e.codec ∈ textSubtitleCodecs ∧
      ∃ s, s ∈ streams ∧ s.codecType = "subtitle" ∧ s.index = e.index ∧
        s.codecName = e.codec) ∧
    (∀ streams s, s ∈ streams → s.codecType = "subtitle" →
      s.codecName ∈ textSubtitleCodecs →
      ∃ e, e ∈ subEntriesOf streams ∧ e.index = s.index ∧
        e.codec = s.codecName) := by
  refine ⟨?_, ?_, ?_, ?_, ?_⟩
  · intro probeExit parsed; rfl
  · intro u pe parsed hu hpe
    simp [metadataHandler, jsTruthy, hu, hpe]
  · intro u streams hu
    simp [metadataHandler, jsTruthy, hu]
  · intro streams e he
    obtain ⟨s, hs, h1, h2⟩ := subEntriesAux_mem _ 0 e he
    have hs2 := hs
    simp only [subStreamsOf, List.mem_filter, beq_iff_eq,
      decide_eq_true_eq] at hs2
    obtain ⟨⟨hmem, hsub⟩, hcodec⟩ := hs2
    exact ⟨by rw [h2]; exact hcodec, s, hmem, hsub, h1.symm, h2.symm⟩
  · intro streams s hmem htype hcodec
    have hs : s ∈ subStreamsOf streams := by
      simp [subStreamsOf, List.mem_filter, hmem, htype, hcodec]
    exact mem_subEntriesAux _ 0 s hs

/-- **C7, witness.** The amended contract at concrete inputs: a failed
probe answers 500 and a successful one answers 200 with the two lists. -/
theorem c7_metadata_contract_witness :
    metadataHandler (some "u") 2 none = .probeFailed ∧
    metadataHandler (some "u") 0 (some metaStreams) =
      .ok (audioEntriesOf metaStreams) (subEntriesOf metaStreams) :=
  ⟨c7_metadata_contract.2.1 "u" 2 none (by decide) (by decide),
   c7_metadata_contract.2.2.1 "u" metaStreams (by decide)⟩

/-- Helper: a string shorter than `suffix` never equals `d ++ suffix`. -/
theorem ne_append_of_length_lt {a suffix : String}
    (h : a.length < suffix.length) (d : String) : a ≠ d ++ suffix := by
  intro he
  have hlen := congrArg String.length he
  rw [String.length_append] at hlen
  omega

/-- **C8 (confirmed).** The audio codec block of a spawned transcoder: TVs
get `ac3` with a forced 48000 Hz sample rate, other devices `aac` with the
source rate kept; the block always carries bitrate `640k` and 6 channels,
and it is emitted exactly when the probe found at least one audio stream —
with zero audio streams the variant map is exactly `v:0` and no audio
codec flag appears in the argument list. -/
theorem c8_audio_codec_block :
    ∀ (isTV dm : Bool) (pr : ProbeResult) (u dir : String),
      (buildPlan isTV dm pr u dir).audioCodec = (if isTV then "ac3" else "aac") ∧
      (buildPlan isTV dm pr u dir).audioSampleRate =
        (if isTV then ["-ar", "48000"] else []) ∧
      ((buildPlan isTV dm pr u dir).audioTracks ≠ [] →
        ∃ l1 l2,
          (buildPlan isTV dm pr u dir).args =
            l1 ++ (["-filter_complex", (buildPlan isTV dm pr u dir).filterComplex,
                     "-c:a", (if isTV then "ac3" else "aac")]
                    ++ (if isTV then ["-ar", "48000"] else [])
                    ++ ["-b:a", "640k", "-ac", "6"]) ++ l2) ∧
      ((buildPlan isTV dm pr u dir).audioTracks = [] →
        (buildPlan isTV dm pr u dir).varStreamMap = "v:0" ∧
        (u ≠ "-c:a" → "-c:a" ∉ (buildPlan isTV dm pr u dir).args)) := by
  intro isTV dm pr u dir
  refine ⟨?_, ?_, ?_, ?_⟩
  · cases isTV <;> rfl
  · cases isTV <;> rfl
  · intro htr
    have hne : (probeAudioTracks pr).isEmpty = false := by
      cases h : probeAudioTracks pr with
      | nil => exact absurd h htr
      | cons a t => rfl
    refine ⟨["-y", "-i", u, "-map", "0:v:0"] ++ audioMapsOf (probeAudioTracks pr)
        ++ ["-c:v", videoCodecOf dm] ++ videoOptsOf dm,
      hlsTailArgs (varStreamMapOf (probeAudioTracks pr)) dir, ?_⟩
    cases isTV <;>
      simp [buildPlan, ffmpegArgsOf, audioBlockArgs, hne, audioCodecOf,
        audioSampleRateOf, List.append_assoc]
  · intro htr
    have h0 : probeAudioTracks pr = [] := htr
    refine ⟨by simp [buildPlan, varStreamMapOf, h0], ?_⟩
    intro hu hmem
    cases dm <;>
    · simp only [buildPlan, ffmpegArgsOf, h0, audioMapsOf, audioMapsAux,
        audioBlockArgs, List.isEmpty_nil, if_true, varStreamMapOf,
        hlsTailArgs, videoCodecOf, videoOptsOf, defaultVideoOpts,
        Bool.false_eq_true, if_false,
        List.append_nil, List.nil_append, List.append_assoc] at hmem
      simp [List.mem_append, List.mem_cons, hu, Ne.symm hu] at hmem
      rcases hmem with h | h
      · exact absurd h (ne_append_of_length_lt (by decide) dir)
      · exact absurd h (ne_append_of_length_lt (by decide) dir)

/-- **C8, witness.** The block at concrete inputs: a TV transcode of an
AC-3 source emits the ac3/48000/640k/6ch block; a probe failure (no audio
streams) yields variant map `v:0` and no `-c:a` flag. -/
theorem c8_audio_codec_block_witness :
    (∃ l1 l2,
      (buildPlan true false tvProbe "u" "/d").args =
        l1 ++ (["-filter_complex", (buildPlan true false tvProbe "u" "/d").filterComplex,
                 "-c:a", (if true then "ac3" else "aac")]
                ++ (if true then ["-ar", "48000"] else [])
                ++ ["-b:a", "640k", "-ac", "6"]) ++ l2) ∧
    (buildPlan false false { exitCode := 1, parsed := none } "u" "/d").varStreamMap
      = "v:0" ∧
    "-c:a" ∉ (buildPlan false false { exitCode := 1, parsed := none } "u" "/d").args := by
  refine ⟨(c8_audio_codec_block true false tvProbe "u" "/d").2.2.1 (by decide), ?_, ?_⟩
  · exact ((c8_audio_codec_block false false { exitCode := 1, parsed := none }
      "u" "/d").2.2.2 (by decide)).1
  · exact ((c8_audio_codec_block false false { exitCode := 1, parsed := none }
      "u" "/d").2.2.2 (by decide)).2 (by decide)

/-- **C9 (confirmed).** The cleanup job runs every 5 minutes with a
2-hour inactivity threshold; every session whose `lastHeartbeat` is older
than the threshold is dropped from the map, its directory removal and
entry drop are performed, and its transcoder is killed when one is
running; every session surviving a tick is within the threshold. -/
theorem c9_eviction :
    cleanupPeriodMs = 5 * 60 * 1000 ∧
    sessionTimeoutMs = 2 * 60 * 60 * 1000 ∧
    (∀ now store p, p ∈ cleanupTick now store →
      now - p.2.lastPing ≤ sessionTimeoutMs) ∧
    (∀ now store p, p ∈ store → sessionTimeoutMs < now - p.2.lastPing →
      p ∉ cleanupTick now store ∧
      CleanupAction.removeDir p.2.dir ∈ cleanupActions now store ∧
      CleanupAction.dropEntry p.1 ∈ cleanupActions now store ∧
      (p.2.process = true →
        CleanupAction.killTranscoder p.1 ∈ cleanupActions now store)) := by
  refine ⟨rfl, rfl, ?_, ?_⟩
  · intro now store p hp
    have h2 := (List.mem_filter.mp hp).2
    simp [expiredAt] at h2
    omega
  · intro now store p hmem hexp
    have hexpb : expiredAt now p.2 = true := by simp [expiredAt, hexp]
    have hf : p ∈ store.filter (fun q => expiredAt now q.2) :=
      List.mem_filter.mpr ⟨hmem, hexpb⟩
    refine ⟨?_, ?_, ?_, ?_⟩
    · intro hp
      have h2 := (List.mem_filter.mp hp).2
      simp [expiredAt, hexp] at h2
    · exact List.mem_flatMap.mpr ⟨p, hf, by cases hpr : p.2.process <;> simp⟩
    · exact List.mem_flatMap.mpr ⟨p, hf, by cases hpr : p.2.process <;> simp⟩
    · intro hproc
      exact List.mem_flatMap.mpr ⟨p, hf, by simp [hproc]⟩

/-- **C9, witness.** One tick over a store with a stale and a fresh
session: the stale entry is gone and all three eviction actions fire. -/
theorem c9_eviction_witness :
    ("old", staleOld) ∉ cleanupTick 8000001 staleStore ∧
    CleanupAction.removeDir "/app/public/hls/old" ∈ cleanupActions 8000001 staleStore ∧
    CleanupAction.dropEntry "old" ∈ cleanupActions 8000001 staleStore ∧
    CleanupAction.killTranscoder "old" ∈ cleanupActions 8000001 staleStore := by
  have h := c9_eviction.2.2.2 8000001 staleStore ("old", staleOld)
    (by decide) (by decide)
  exact ⟨h.1, h.2.1, h.2.2.1, h.2.2.2 (by decide)⟩

/-- **C10 (confirmed, implicit).** The close handler clears both the
process handle and the source url for every exit code; consequently a
later start with the same `(session, url)` is never answered `resumed` —
it spawns a fresh transcoder. -/
theorem c10_close_clears_then_fresh_start :
    (∀ code s, (closeClearSession code s).process = false ∧
      (closeClearSession code s).url = none) ∧
    (∀ store sid s u now isTV pr, List.lookup sid store = some s →
      s.process = false → u ≠ "" → sid ≠ "" →
      (∀ st, startHandler store (some u) (some sid) now isTV pr ≠ .resumed st) ∧
      ∃ st, startHandler store (some u) (some sid) now isTV pr =
        .launched st (buildPlan isTV isTV pr u s.dir)) := by
  constructor
  · intro code s; exact ⟨rfl, rfl⟩
  · intro store sid s u now isTV pr hl hp hu hsid
    have hstep : startHandler store (some u) (some sid) now isTV pr =
        .launched (setSession (touchStore store sid now) sid
          { s with lastPing := now, process := true, url := some u })
          (buildPlan isTV isTV pr u s.dir) := by
      simp only [startHandler]
      rw [if_neg (by simp [hu, hsid])]
      cases hl2 : List.lookup sid store with
      | none => rw [hl2] at hl; exact absurd hl (by simp)
      | some s0 =>
        rw [hl2] at hl
        injection hl with hl
        subst hl
        dsimp only
        rw [if_neg (by simp [hp])]
    constructor
    · intro st hcon
      rw [hstep] at hcon
      exact absurd hcon (by simp)
    · exact ⟨_, hstep⟩

/-- **C10, witness.** After the close handler cleared `sampleSession`, a
repeated start with the same url launches a fresh transcoder. -/
theorem c10_close_clears_then_fresh_start_witness :
    (closeClearSession 1 sampleSession).process = false ∧
    ∃ st, startHandler [("s1", doneSession)] (some "http://m/v.mkv") (some "s1") 9
        false { exitCode := 1, parsed := none } =
      .launched st (buildPlan false false { exitCode := 1, parsed := none }
        "http://m/v.mkv" doneSession.dir) := by
  have h := c10_close_clears_then_fresh_start.2 [("s1", doneSession)] "s1"
    doneSession "http://m/v.mkv" 9 false { exitCode := 1, parsed := none }
    rfl rfl (by decide) (by decide)
  exact ⟨(c10_close_clears_then_fresh_start.1 1 sampleSession).1, h.2⟩

end PlayerTV
